import Mathlib

/-!
Verification of the caddydhcp DHCP server core against its specification.

The Go sources are shallowly embedded: each Go function relevant to a
claim is translated into an executable Lean definition that mirrors its
control flow.  Machine integers are modelled by `Nat`/`Int`, Go byte
slices by `List Nat`, Go `nil` pointers and `nil` maps by `Option`, and
fallible Go functions by `Except`/`Option`.  Library code external to
the repository (the Go standard library and the DHCP codec) is modelled
by its documented behaviour; repository code absent from the provided
sources (the allocator package) is modelled from the specification and
marked as such in its doc comment.
-/

namespace CaddyDhcp

/-! ## Handler chain engine

`handlerChain.Handle4` (and the structurally identical `Handle6`) build
the middleware chain by iterating over the configured handlers in
reverse order, wrapping the accumulated `next` continuation:

    for i := len(c.handlers) - 1; i >= 0; i-- {
        nextCopy := next
        next = func() error { return c.handlers[i].Handle4(req, resp, nextCopy) }
    }
    return next()

A handler's observable actions on a request are instrumented by a trace
of events: `entered k` when handler `k`s `Handle` body starts, `post k`
when its post-`next` processing finishes.  A Go `func() error` with
side effects becomes a state-passing function on traces. -/

/-- Observable event of one handler invocation: the handler was entered,
or its post-`next` processing completed. -/
inductive Event where
  | entered (k : Nat)
  | post (k : Nat)
deriving DecidableEq, Repr

abbrev Trace := List Event

/-- A Go `func() error` continuation, instrumented with a trace.
Errors are modelled as `Nat` values so that value-preserving
propagation is observable. -/
abbrev NextFn := Trace → Trace × Option Nat

/-- A handler body: receives the `next` continuation, yields a
continuation for the whole tail of the chain. -/
abbrev HandlerFn := NextFn → NextFn

/-- The ways a single handler can act, per the chain contract: call
`next` once and do post-processing (middleware), return `nil` without
calling `next` (responder short-circuit), or return an error without
calling `next`. -/
inductive Behavior where
  | passThrough
  | shortCircuit
  | fail (e : Nat)
deriving DecidableEq, Repr

/-- Instrumented handler with identity `k` and behaviour `b`.  A
pass-through handler propagates the value returned by `next` unchanged,
as the chain contract requires. -/
def runHandler (k : Nat) (b : Behavior) (next : NextFn) : NextFn := fun t =>
  match b with
  | .passThrough =>
      let r := next (t ++ [Event.entered k])
      (r.1 ++ [Event.post k], r.2)
  | .shortCircuit => (t ++ [Event.entered k], none)
  | .fail e => (t ++ [Event.entered k], some e)

/-- The terminal `next` passed by the dispatcher:
`func() error { return nil }`. -/
def terminalNext : NextFn := fun t => (t, none)

/-- `handlerChain.Handle4`: the reverse-iteration loop shown above
produces `h0 (h1 (... (h_last next)))`; invoking the result runs `h0`
first. -/
def chainHandle : List HandlerFn → NextFn → NextFn
  | [], next => next
  | h :: rest, next => h (chainHandle rest next)

/-- Handlers `[b_i, b_(i+1), ...]` instrumented with consecutive
identities starting at `i`. -/
def mkHandlersFrom (i : Nat) : List Behavior → List HandlerFn
  | [] => []
  | b :: rest => runHandler i b :: mkHandlersFrom (i + 1) rest

/-- Run the compiled chain of the given behaviours (handler `k` is the
`k`-th configured handler) with the dispatcher's terminal `next` and an
empty trace. -/
def handlerChainRun (bs : List Behavior) : Trace × Option Nat :=
  chainHandle (mkHandlersFrom 0 bs) terminalNext []

/-- DHCPv4 request message types, as far as the dispatcher's reply
switch distinguishes them. -/
inductive MessageType4 where
  | discover
  | request
  | other
deriving DecidableEq, Repr

/-- `dhcpServer.handle4` after decoding: `Discover`/`Request` get a
reply skeleton and the chain is invoked, any other type is dropped;
a chain error drops the request, otherwise the (always non-nil)
response is serialized and written.  `some t` means a response was
written, `none` means no bytes were sent. -/
def dispatch4 (mt : MessageType4) (bs : List Behavior) : Option Trace :=
  match mt with
  | .other => none
  | _ =>
      match handlerChainRun bs with
      | (t, none) => some t
      | (_, some _) => none

theorem chainHandle_append (A B : List HandlerFn) (next : NextFn) :
    chainHandle (A ++ B) next = chainHandle A (chainHandle B next) := by
  induction A with
  | nil => rfl
  | cons h rest ih => simp [chainHandle, ih]

theorem mkHandlersFrom_append (xs ys : List Behavior) (i : Nat) :
    mkHandlersFrom i (xs ++ ys)
      = mkHandlersFrom i xs ++ mkHandlersFrom (i + xs.length) ys := by
  induction xs generalizing i with
  | nil => simp [mkHandlersFrom]
  | cons b rest ih => simp [mkHandlersFrom, ih, Nat.add_assoc, Nat.add_comm 1 rest.length]

theorem chainHandle_passThrough (n i : Nat) (next : NextFn) (t : Trace) :
    chainHandle (mkHandlersFrom i (List.replicate n .passThrough)) next t
      = ((next (t ++ (List.range' i n).map Event.entered)).1
           ++ ((List.range' i n).reverse).map Event.post,
         (next (t ++ (List.range' i n).map Event.entered)).2) := by
  induction n generalizing i t with
  | zero => simp [mkHandlersFrom, chainHandle]
  | succ n ih =>
      simp only [List.replicate_succ, mkHandlersFrom, chainHandle, List.range'_succ]
      simp only [runHandler]
      rw [ih (i + 1) (t ++ [Event.entered i])]
      simp [List.map_append, List.append_assoc]

/-- C1: for every handler sequence `h0..h_(n-1)` of middleware handlers,
invoking the compiled chain with the dispatcher's terminal `next` enters
the handlers in order `h0, h1, ..., h_(n-1)` and completes their
post-`next` processing in the reverse order `h_(n-1), ..., h0`; the
chain returns `nil`. -/
theorem chain_ordering (n : Nat) :
    handlerChainRun (List.replicate n .passThrough)
      = ((List.range n).map Event.entered
           ++ ((List.range n).reverse).map Event.post, none) := by
  unfold handlerChainRun
  rw [chainHandle_passThrough n 0 terminalNext []]
  simp [terminalNext, List.range_eq_range']

/-- C2: if handler `h_k` returns `nil` without invoking `next`, then no
handler `h_j` with `j > k` is entered, the chain returns `nil`, and the
dispatcher still serializes and sends the response. -/
theorem chain_short_circuit (k : Nat) (suf : List Behavior) :
    handlerChainRun (List.replicate k .passThrough ++ .shortCircuit :: suf)
        = ((List.range k).map Event.entered
             ++ Event.entered k :: ((List.range k).reverse).map Event.post, none)
      ∧ (∀ j, k < j →
          Event.entered j ∉
            (handlerChainRun (List.replicate k .passThrough ++ .shortCircuit :: suf)).1)
      ∧ dispatch4 .discover (List.replicate k .passThrough ++ .shortCircuit :: suf)
          = some ((List.range k).map Event.entered
               ++ Event.entered k :: ((List.range k).reverse).map Event.post) := by
  have hrun : handlerChainRun (List.replicate k .passThrough ++ .shortCircuit :: suf)
      = ((List.range k).map Event.entered
           ++ Event.entered k :: ((List.range k).reverse).map Event.post, none) := by
    unfold handlerChainRun
    rw [mkHandlersFrom_append, chainHandle_append]
    rw [chainHandle_passThrough k 0]
    simp only [List.length_replicate, Nat.zero_add, mkHandlersFrom, chainHandle, runHandler]
    simp [List.range_eq_range']
  refine ⟨hrun, ?_, ?_⟩
  · intro j hj
    rw [hrun]
    simp only [List.mem_append, List.mem_cons, List.mem_map, List.mem_range,
      List.mem_reverse]
    rintro (⟨i, hi, hEq⟩ | hEq | ⟨i, hi, hEq⟩)
    · cases hEq; omega
    · cases hEq; omega
    · cases hEq
  · simp [dispatch4, hrun]

/-- C3: if handler `h_k` returns a non-nil error `e`, the chain returns
exactly that error value unchanged, no handler `h_j` with `j > k` is
entered, and the dispatcher writes no response bytes for the request
(the post-`next` processing of `h_0..h_(k-1)` does run). -/
theorem chain_error_abort (k e : Nat) (suf : List Behavior) :
    handlerChainRun (List.replicate k .passThrough ++ .fail e :: suf)
        = ((List.range k).map Event.entered
             ++ Event.entered k :: ((List.range k).reverse).map Event.post, some e)
      ∧ (∀ j, k < j →
          Event.entered j ∉
            (handlerChainRun (List.replicate k .passThrough ++ .fail e :: suf)).1)
      ∧ dispatch4 .discover (List.replicate k .passThrough ++ .fail e :: suf) = none := by
  have hrun : handlerChainRun (List.replicate k .passThrough ++ .fail e :: suf)
      = ((List.range k).map Event.entered
           ++ Event.entered k :: ((List.range k).reverse).map Event.post, some e) := by
    unfold handlerChainRun
    rw [mkHandlersFrom_append, chainHandle_append]
    rw [chainHandle_passThrough k 0]
    simp only [List.length_replicate, Nat.zero_add, mkHandlersFrom, chainHandle, runHandler]
    simp [List.range_eq_range']
  refine ⟨hrun, ?_, ?_⟩
  · intro j hj
    rw [hrun]
    simp only [List.mem_append, List.mem_cons, List.mem_map, List.mem_range,
      List.mem_reverse]
    rintro (⟨i, hi, hEq⟩ | hEq | ⟨i, hi, hEq⟩)
    · cases hEq; omega
    · cases hEq; omega
    · cases hEq
  · simp [dispatch4, hrun]

/-! ## DHCPv4 messages and the option-setting handlers

The DHCP codec (`insomniacslk/dhcp`) is external to the repository; its
typed accessors are modelled at the level the handlers use them: a
message carries an op-code, a parameter request list, `YourIPAddr` and
a code-indexed option list, `IsOptionRequested` is membership in the
parameter request list, and `UpdateOption` replaces the value stored
for an option code (or appends it). -/

/-- Typed option values produced by the codec's option constructors
(`OptRouter`, `OptClasslessStaticRoute`, ...).  Their wire encodings
are irrelevant to the claims, so they stay symbolic. -/
inductive OptValue where
  | routers (ips : List (List Nat))
  | routes (rs : List (List Nat × List Nat))
  | leaseTime (seconds : Int)
  | subnetMask (mask : List Nat)
deriving DecidableEq, Repr

/-- A DHCPv4 message as the option-setting handlers see it. -/
structure DHCPv4Msg where
  OpCode : Nat
  parameterRequestList : List Nat
  YourIPAddr : List Nat
  options : List (Nat × OptValue)
deriving DecidableEq, Repr

def OpcodeBootRequest : Nat := 1

def OptionSubnetMask : Nat := 1
def OptionRouter : Nat := 3
def OptionDomainNameServer : Nat := 6
def OptionIPAddressLeaseTime : Nat := 51
def OptionClasslessStaticRoute : Nat := 121

/-- `req.IsOptionRequested(code)`: the code appears in the client's
parameter request list. -/
def isOptionRequested (req : DHCPv4Msg) (code : Nat) : Bool :=
  req.parameterRequestList.contains code

/-- Replace the value stored for `code`, or append it. -/
def upsertOption : List (Nat × OptValue) → Nat → OptValue → List (Nat × OptValue)
  | [], c, v => [(c, v)]
  | (c0, v0) :: rest, c, v =>
      if c0 = c then (c, v) :: rest else (c0, v0) :: upsertOption rest c v

/-- `resp.UpdateOption(opt)`. -/
def updateOption (resp : DHCPv4Msg) (code : Nat) (v : OptValue) : DHCPv4Msg :=
  { resp with options := upsertOption resp.options code v }

/-- The value the response currently stores for an option code. -/
def lookupOption (resp : DHCPv4Msg) (code : Nat) : Option OptValue :=
  match resp.options.find? (fun p => p.1 == code) with
  | some p => some p.2
  | none => none

/-- `leasetime.Module.Handle4` (src/unnamed/part_002): sets the
IP-address-lease-time option when
`req.OpCode != dhcpv4.OpcodeBootRequest && req.IsOptionRequested(OptionIPAddressLeaseTime)`,
then always returns `next()`. -/
def leasetimeHandle4 (timeSeconds : Int) (req resp : DHCPv4Msg) : DHCPv4Msg :=
  if req.OpCode != OpcodeBootRequest && isOptionRequested req OptionIPAddressLeaseTime then
    updateOption resp OptionIPAddressLeaseTime (.leaseTime timeSeconds)
  else resp

/-- `router.Module.Handle4`: unconditionally updates the router option,
then returns `next()`; the request is ignored. -/
def routerHandle4 (routers : List (List Nat)) (resp : DHCPv4Msg) : DHCPv4Msg :=
  updateOption resp OptionRouter (.routers routers)

/-- `staticroute.Module.Handle4` (src/unnamed/part_005): updates the
classless-static-route option when the client requested the
domain-name-server option, then returns `next()`. -/
def staticrouteHandle4 (routes : List (List Nat × List Nat)) (req resp : DHCPv4Msg) :
    DHCPv4Msg :=
  if isOptionRequested req OptionDomainNameServer then
    updateOption resp OptionClasslessStaticRoute (.routes routes)
  else resp

/-- `netmask.Module.Handle4` (src/unnamed/part_001): unconditionally
updates the subnet-mask option, then returns `next()`. -/
def netmaskHandle4 (netmask : List Nat) (resp : DHCPv4Msg) : DHCPv4Msg :=
  updateOption resp OptionSubnetMask (.subnetMask netmask)

theorem find?_upsertOption (l : List (Nat × OptValue)) (code : Nat) (v : OptValue) :
    (upsertOption l code v).find? (fun p => p.1 == code) = some (code, v) := by
  induction l with
  | nil => simp [upsertOption, List.find?]
  | cons p rest ih =>
      obtain ⟨c0, v0⟩ := p
      by_cases h : c0 = code
      · simp [upsertOption, h, List.find?]
      · have hb : (c0 == code) = false := by simp [h]
        simp only [upsertOption, if_neg h, List.find?_cons, hb]
        exact ih

theorem lookupOption_updateOption_self (resp : DHCPv4Msg) (code : Nat) (v : OptValue) :
    lookupOption (updateOption resp code v) code = some v := by
  simp [lookupOption, updateOption, find?_upsertOption]

/-- A request with opcode BootRequest (1) whose parameter request list
asks for the IP-address-lease-time option (51). -/
def reqLeaseBootRequest : DHCPv4Msg :=
  { OpCode := 1, parameterRequestList := [51], YourIPAddr := [], options := [] }

/-- The same request with opcode BootReply (2). -/
def reqLeaseBootReply : DHCPv4Msg :=
  { OpCode := 2, parameterRequestList := [51], YourIPAddr := [], options := [] }

/-- An empty reply skeleton (also reused as a request whose parameter
request list is empty). -/
def emptyMsg4 : DHCPv4Msg :=
  { OpCode := 1, parameterRequestList := [], YourIPAddr := [], options := [] }

/-- C7: the leasetime handler's opcode test is inverted relative to the
spec.  On a BootRequest that asks for the lease-time option the code
leaves the response unchanged (the spec requires setting the option),
while on a BootReply it sets the option (the spec requires leaving the
response unchanged). -/
theorem leasetime_opcode_inverted :
    isOptionRequested reqLeaseBootRequest OptionIPAddressLeaseTime = true
      ∧ reqLeaseBootRequest.OpCode = OpcodeBootRequest
      ∧ leasetimeHandle4 3600 reqLeaseBootRequest emptyMsg4 = emptyMsg4
      ∧ lookupOption (leasetimeHandle4 3600 reqLeaseBootRequest emptyMsg4)
          OptionIPAddressLeaseTime = none
      ∧ reqLeaseBootReply.OpCode ≠ OpcodeBootRequest
      ∧ lookupOption (leasetimeHandle4 3600 reqLeaseBootReply emptyMsg4)
          OptionIPAddressLeaseTime = some (.leaseTime 3600) := by
  decide

/-- C9 counterexample: on a request whose parameter request list is
empty (so the router option is not requested), the router handler still
changes the response by installing the router option; the claim says
the response would be left unchanged. -/
theorem router_sets_option_unrequested_cex :
    isOptionRequested emptyMsg4 OptionRouter = false
      ∧ routerHandle4 [[192, 0, 2, 1]] emptyMsg4 ≠ emptyMsg4
      ∧ lookupOption (routerHandle4 [[192, 0, 2, 1]] emptyMsg4) OptionRouter
          = some (.routers [[192, 0, 2, 1]]) := by
  decide

/-- C9 (amended): the router handler sets the router option
unconditionally (like netmask); the staticroute handler sets the
classless-static-route option exactly when the client requested the
domain-name-server option, and otherwise leaves the response unchanged. -/
theorem router_staticroute_netmask_spec (rs : List (List Nat))
    (routes : List (List Nat × List Nat)) (mask : List Nat) (req resp : DHCPv4Msg) :
    lookupOption (routerHandle4 rs resp) OptionRouter = some (.routers rs)
      ∧ lookupOption (staticrouteHandle4 routes req resp) OptionClasslessStaticRoute
          = (if isOptionRequested req OptionDomainNameServer
             then some (.routes routes)
             else lookupOption resp OptionClasslessStaticRoute)
      ∧ lookupOption (netmaskHandle4 mask resp) OptionSubnetMask
          = some (.subnetMask mask) := by
  refine ⟨lookupOption_updateOption_self resp OptionRouter (.routers rs), ?_,
    lookupOption_updateOption_self resp OptionSubnetMask (.subnetMask mask)⟩
  by_cases h : isOptionRequested req OptionDomainNameServer
  · simp [staticrouteHandle4, h, lookupOption_updateOption_self]
  · simp [staticrouteHandle4, h]

/-! ## Go net-package primitives

`net.IP` is a byte slice, modelled as `List Nat` with `[]` standing for
the `nil` slice.  `To4`, `To16` and `IP.Equal` follow the Go standard
library; a dotted-quad parsed by `net.ParseIP` is stored in 16-byte
IPv4-in-IPv6 form. -/

/-- The 12-byte prefix marking an IPv4-in-IPv6 address
(`0,...,0,0xff,0xff`). -/
def v4InV6Pre : List Nat :=
  [0, 0, 0, 0, 0, 0, 0, 0, 0, 0, 0xff, 0xff]

/-- `net.IP.To4`: the 4-byte form of an IPv4 address, else `nil`. -/
def ipTo4 (ip : List Nat) : List Nat :=
  if ip.length = 4 then ip
  else if ip.length = 16 ∧ ip.take 12 = v4InV6Pre then ip.drop 12
  else []

/-- `net.IP.To16`: the 16-byte form of the address, else `nil`. -/
def ipTo16 (ip : List Nat) : List Nat :=
  if ip.length = 4 then v4InV6Pre ++ ip
  else if ip.length = 16 then ip
  else []

/-- `net.IP.Equal`: byte equality after reconciling 4-byte and 16-byte
forms of the same IPv4 address.  Note `nil.Equal(nil) = true` (both
lengths are 0). -/
def goIPEqual (a b : List Nat) : Bool :=
  if a.length = b.length then a == b
  else if a.length = 4 ∧ b.length = 16 then
    (b.take 12 == v4InV6Pre) && (a == b.drop 12)
  else if a.length = 16 ∧ b.length = 4 then
    (a.take 12 == v4InV6Pre) && (a.drop 12 == b)
  else false

/-- `net.IPv6zero`. -/
def ipv6Zero : List Nat := List.replicate 16 0

/-- `net.IPNet`: an IP with a mask, both byte slices. -/
structure IPNet where
  IP : List Nat
  Mask : List Nat
deriving DecidableEq, Repr

/-- Go map assignment `m[k] = v` on an association-list model. -/
def mapInsert {α : Type} : List (String × α) → String → α → List (String × α)
  | [], k, v => [(k, v)]
  | (k0, v0) :: rest, k, v =>
      if k0 = k then (k, v) :: rest else (k0, v0) :: mapInsert rest k v

/-- Go map lookup `m[k]`. -/
def mapLookup {α : Type} : List (String × α) → String → Option α
  | [], _ => none
  | (k0, v0) :: rest, k => if k0 = k then some v0 else mapLookup rest k

/-! ## File-lease handler: `Module.loadRecords`
(src/handlers/example/module.go lines 265-301)

Line tokenisation and `net.ParseIP` are standard-library concerns; a
lease file is modelled as the list of its parsed `(identifier, IP)`
records (a line whose IP fails to parse yields `[]`, Go `nil`).  The
repository's per-line branching is embedded exactly:

    if ip.To4() != nil { records4[id] = ip }
    if ip.To16() != nil { records6[id] = ip }
-/

/-- One parsed lease-file line applied to the two record maps. -/
def loadStep (acc : List (String × List Nat) × List (String × List Nat))
    (e : String × List Nat) :
    List (String × List Nat) × List (String × List Nat) :=
  let r4 := if ipTo4 e.2 = [] then acc.1 else mapInsert acc.1 e.1 e.2
  let r6 := if ipTo16 e.2 = [] then acc.2 else mapInsert acc.2 e.1 e.2
  (r4, r6)

/-- `Module.loadRecords` over the parsed lines: builds the fresh
`records4` and `records6` maps. -/
def loadRecordsEntries (entries : List (String × List Nat)) :
    List (String × List Nat) × List (String × List Nat) :=
  entries.foldl loadStep ([], [])

theorem ipTo4_ne_nil_ipTo16_ne_nil (ip : List Nat) :
    ipTo4 ip ≠ [] → ipTo16 ip ≠ [] := by
  intro h
  unfold ipTo4 at h
  unfold ipTo16
  by_cases h4 : ip.length = 4
  · simp only [if_pos h4]
    simp [v4InV6Pre]
  · by_cases h16 : ip.length = 16 ∧ ip.take 12 = v4InV6Pre
    · simp only [if_neg h4, if_pos h16.1]
      intro hnil
      rw [hnil] at h16
      simp at h16
    · exfalso
      exact h (by simp [if_neg h4, if_neg h16])

theorem mem_keys_mapInsert {α : Type} (m : List (String × α)) (k : String) (v : α)
    (j : String) :
    j ∈ (mapInsert m k v).map Prod.fst ↔ j = k ∨ j ∈ m.map Prod.fst := by
  induction m with
  | nil => simp [mapInsert]
  | cons p rest ih =>
      obtain ⟨k0, v0⟩ := p
      by_cases h : k0 = k
      · subst h
        simp [mapInsert]
      · simp only [mapInsert, if_neg h, List.map_cons, List.mem_cons, ih]
        tauto

theorem loadStep_keys_sub
    (acc : List (String × List Nat) × List (String × List Nat))
    (e : String × List Nat)
    (h : ∀ j, j ∈ acc.1.map Prod.fst → j ∈ acc.2.map Prod.fst) :
    ∀ j, j ∈ (loadStep acc e).1.map Prod.fst → j ∈ (loadStep acc e).2.map Prod.fst := by
  intro j hj
  unfold loadStep at hj ⊢
  by_cases h4 : ipTo4 e.2 = []
  · simp only [if_pos h4] at hj
    by_cases h6 : ipTo16 e.2 = []
    · simpa [if_pos h6] using h j hj
    · simp only [if_neg h6, mem_keys_mapInsert]
      exact Or.inr (h j hj)
  · have h6 : ipTo16 e.2 ≠ [] := ipTo4_ne_nil_ipTo16_ne_nil e.2 h4
    simp only [if_neg h4, mem_keys_mapInsert] at hj
    simp only [if_neg h6, mem_keys_mapInsert]
    rcases hj with hk | hm
    · exact Or.inl hk
    · exact Or.inr (h j hm)

theorem loadFold_keys_sub (entries : List (String × List Nat))
    (acc : List (String × List Nat) × List (String × List Nat))
    (h : ∀ j, j ∈ acc.1.map Prod.fst → j ∈ acc.2.map Prod.fst) :
    ∀ j, j ∈ (entries.foldl loadStep acc).1.map Prod.fst →
      j ∈ (entries.foldl loadStep acc).2.map Prod.fst := by
  induction entries generalizing acc with
  | nil => exact h
  | cons e rest ih => exact ih (loadStep acc e) (loadStep_keys_sub acc e h)

/-- C8 counterexample: a lease file with the single line
`00:11:22:33:44:55 10.0.0.1` — whose IP parses as IPv4 (stored by
`net.ParseIP` in 16-byte IPv4-in-IPv6 form) — puts the record in the v6
map as well as the v4 map, because `To16` also succeeds on an IPv4
address; the claim says an IPv4 line produces no v6 entry. -/
theorem load_records_ipv4_in_v6_map_cex :
    loadRecordsEntries [("00:11:22:33:44:55", v4InV6Pre ++ [10, 0, 0, 1])]
      = ([("00:11:22:33:44:55", v4InV6Pre ++ [10, 0, 0, 1])],
         [("00:11:22:33:44:55", v4InV6Pre ++ [10, 0, 0, 1])])
      ∧ ((loadRecordsEntries [("00:11:22:33:44:55", v4InV6Pre ++ [10, 0, 0, 1])]).2
          ≠ []) := by
  decide

/-- C8 (amended): every line whose IP has an IPv4 form lands in both
maps (To16 succeeds whenever To4 does), so the v4 map's keys are always
a subset of the v6 map's keys; the two maps partition nothing.  Lines
whose IP is IPv6-only land only in the v6 map. -/
theorem load_records_v4_keys_subset_v6 (entries : List (String × List Nat))
    (id : String) :
    (((loadRecordsEntries entries).1.map Prod.fst).all
        (fun k => ((loadRecordsEntries entries).2.map Prod.fst).contains k)) = true
      ∧ loadRecordsEntries [(id, v4InV6Pre ++ [10, 0, 0, 1])]
          = ([(id, v4InV6Pre ++ [10, 0, 0, 1])], [(id, v4InV6Pre ++ [10, 0, 0, 1])])
      ∧ loadRecordsEntries [(id, [0x20, 0x01, 0x0d, 0xb8, 0, 0, 0, 0, 0, 0, 0, 0, 0, 0, 0, 1])]
          = ([], [(id, [0x20, 0x01, 0x0d, 0xb8, 0, 0, 0, 0, 0, 0, 0, 0, 0, 0, 0, 1])]) := by
  refine ⟨?_, by simp [loadRecordsEntries, loadStep, ipTo4, ipTo16, v4InV6Pre, mapInsert],
    by simp [loadRecordsEntries, loadStep, ipTo4, ipTo16, v4InV6Pre, mapInsert]⟩
  rw [List.all_eq_true]
  intro k hk
  exact List.elem_iff.mpr (loadFold_keys_sub entries ([], []) (by simp) k hk)

/-! ## Prefix handler: `samePrefix`
(src/handlers/prefix/module.go lines 207-214) -/

/-- `samePrefix(a, b)`: false if either pointer is nil, otherwise
`a.IP.Equal(b.IP) && bytes.Equal(a.Mask, b.Mask)`. -/
def samePrefix (a b : Option IPNet) : Bool :=
  match a, b with
  | some a, some b => goIPEqual a.IP b.IP && a.Mask == b.Mask
  | _, _ => false

/-- The empty prefix `&net.IPNet{}` (nil IP, nil mask) constructed at
src/handlers/prefix/module.go lines 95 and 173. -/
def emptyIPNet : IPNet := { IP := [], Mask := [] }

/-- The all-zeros 16-byte prefix. -/
def zeroIPNet16 : IPNet := { IP := List.replicate 16 0, Mask := List.replicate 16 0 }

/-- C10 counterexample: `samePrefix(e, e)` is `true` when `e` is a
non-nil empty prefix — with a nil IP and nil mask, or with an all-zeros
IP and mask — because `nil.Equal(nil)` and `bytes.Equal(nil, nil)` both
hold; the claim asserts it is `false`. -/
theorem samePrefix_empty_reflexive_cex :
    samePrefix (some emptyIPNet) (some emptyIPNet) = true
      ∧ samePrefix (some zeroIPNet16) (some zeroIPNet16) = true := by
  decide

/-- C10 (amended): `samePrefix(a, b)` holds exactly when both arguments
are non-nil, the IPs are `net.IP.Equal` and the masks are byte-equal;
it is non-reflexive only at the nil pointer — on every non-nil prefix,
including the empty one, it is reflexive. -/
theorem samePrefix_spec :
    (∀ p : IPNet, samePrefix (some p) (some p) = true)
      ∧ (∀ x : Option IPNet, samePrefix none x = false ∧ samePrefix x none = false)
      ∧ (∀ a b : IPNet,
          samePrefix (some a) (some b) = (goIPEqual a.IP b.IP && a.Mask == b.Mask)) := by
  refine ⟨?_, ?_, fun a b => rfl⟩
  · intro p
    simp [samePrefix, goIPEqual]
  · intro x
    cases x <;> simp [samePrefix]

/-! ## Prefix-delegation handler (src/handlers/prefix/module.go)

The allocator package (`handlers/allocators/bitmap`) is repository code
not present in the provided sources, so it is modelled from the
specification (§4.5).  IPs are 16-byte big-endian quantities. -/

/-- Big-endian byte-list value of an IP. -/
def ipToNat (ip : List Nat) : Nat :=
  ip.foldl (fun a b => a * 256 + b) 0

/-- The 16-byte big-endian representation of `n` (mod `2^128`). -/
def natToIP16 (n : Nat) : List Nat :=
  (List.range 16).map (fun i => n / 256 ^ (15 - i) % 256)

/-- The bits of one byte, most significant first. -/
def byteBits (b : Nat) : List Bool :=
  (List.range 8).map (fun i => b / 2 ^ (7 - i) % 2 == 1)

/-- `net.IPMask.Size` (the leading-ones count): `0` when the mask is
not canonical (ones followed by zeros), which also covers the nil
mask. -/
def maskOnes (mask : List Nat) : Nat :=
  let bits := (mask.map byteBits).flatten
  let ones := (bits.takeWhile (fun b => b)).length
  if (bits.drop ones).all (fun b => !b) then ones else 0

/-- Go `ip.Equal(net.IPv6zero)` specialised test plus the nil slice. -/
def isZeroIP (ip : List Nat) : Bool :=
  ip.all (fun b => b == 0)

/-- Modelled from the spec: the bitmap IPv6 prefix allocator state.
The pool is a parent CIDR subdivided into `2^(allocLen - parentLen)`
children of length `allocLen`; bit `k` of `used` is set iff child `k`
is allocated. -/
structure PAllocator where
  parentIP : List Nat
  parentLen : Nat
  allocLen : Nat
  used : List Bool
deriving DecidableEq, Repr

/-- Number of addresses covered by one child prefix. -/
def childSize (a : PAllocator) : Nat := 2 ^ (128 - a.allocLen)

/-- The `k`-th child prefix of the pool. -/
def childIPNet (a : PAllocator) (k : Nat) : IPNet :=
  { IP := natToIP16 (ipToNat a.parentIP + k * childSize a),
    Mask := natToIP16 (2 ^ 128 - 2 ^ (128 - a.allocLen)) }

/-- Modelled from the spec (§4.5): `Allocate(hint)`.  A hint prefix of
a different length fails; the zero hint returns the first free child;
a specific hint is returned iff it is a free child of the pool,
otherwise the error kind is hint-unavailable. -/
def PAllocator.Allocate (a : PAllocator) (hint : IPNet) :
    Except String (IPNet × PAllocator) :=
  let hintLen := maskOnes hint.Mask
  if hintLen ≠ 0 ∧ hintLen ≠ a.allocLen then .error "hint prefix length mismatch"
  else if isZeroIP hint.IP then
    match a.used.findIdx? (fun b => b == false) with
    | none => .error "no free prefixes"
    | some k => .ok (childIPNet a k, { a with used := a.used.set k true })
  else
    let ip16 := ipTo16 hint.IP
    let n := ipToNat ip16
    let base := ipToNat a.parentIP
    if ip16 = [] ∨ n < base then .error "hint unavailable"
    else if (n - base) % childSize a = 0 ∧ (n - base) / childSize a < a.used.length then
      if a.used.getD ((n - base) / childSize a) true = false then
        .ok (childIPNet a ((n - base) / childSize a),
             { a with used := a.used.set ((n - base) / childSize a) true })
      else .error "hint unavailable"
    else .error "hint unavailable"

/-- Modelled from the spec: `bitmap.NewBitmapAllocator(prefix, size)`
builds the all-free bitmap over the children of length `size` inside
the parent CIDR. -/
def newBitmapAllocator (p : IPNet) (allocSize : Int) : Except String PAllocator :=
  let pl := maskOnes p.Mask
  if allocSize < (pl : Int) ∨ 128 < allocSize then .error "invalid allocation size"
  else .ok { parentIP := ipTo16 p.IP, parentLen := pl, allocLen := allocSize.toNat,
             used := List.replicate (2 ^ (allocSize.toNat - pl)) false }

/-- A prefix lease record: `record{Prefix net.IPNet; Expire time.Time}`.
Instants are integers. -/
structure PRecord where
  Prefix : IPNet
  Expire : Int
deriving DecidableEq, Repr

/-- `prefix.Module` runtime state: `recLock *sync.RWMutex` (a nil
pointer is `none`) and `records map[string][]record` (a nil map is
`none`). -/
structure PrefixModule where
  Prefix : String
  AllocationSize : Int
  LeaseTime : Int
  allocator : Option PAllocator
  recLock : Option Unit
  records : Option (List (String × List PRecord))
deriving DecidableEq, Repr

/-- The zero `Module` value produced by the registered constructor
`New: func() caddy.Module { return new(Module) }`. -/
def newPrefixModule (pfx : String) (allocationSize leaseTime : Int) : PrefixModule :=
  { Prefix := pfx, AllocationSize := allocationSize, LeaseTime := leaseTime,
    allocator := none, recLock := none, records := none }

/-- `prefix.Module.Provision` (lines 49-67): parse the CIDR (the
result of the standard library's `net.ParseCIDR` is passed in), check
`0 ≤ AllocationSize ≤ 128`, build the allocator.  Note that neither
`recLock` nor `records` is ever assigned. -/
def prefixProvision (m : PrefixModule) (parsedCIDR : Option IPNet) :
    Except String PrefixModule :=
  match parsedCIDR with
  | none => .error "invalid pool subnet"
  | some p =>
      if m.AllocationSize < 0 ∨ 128 < m.AllocationSize then .error "invalid prefix length"
      else
        match newBitmapAllocator p m.AllocationSize with
        | .error e => .error e
        | .ok alloc => .ok { m with allocator := some alloc }

/-- An `OptIAPrefix` emitted into the IA_PD response option. -/
structure OptIAPfx where
  PreferredLifetime : Int
  ValidLifetime : Int
  Prefix : IPNet
deriving DecidableEq, Repr

/-- `dup`: copy a prefix into fresh 16-byte buffers (shorter slices
are zero-padded). -/
def dup (src : IPNet) : IPNet :=
  { IP := (src.IP ++ List.replicate 16 0).take 16,
    Mask := (src.Mask ++ List.replicate 16 0).take 16 }

/-- `addPrefix(resp, l)`: emit an `IAPrefix` whose lifetimes are
`time.Until(l.Expire)`. -/
def addPrefixOpt (now : Int) (l : PRecord) : OptIAPfx :=
  { PreferredLifetime := l.Expire - now, ValidLifetime := l.Expire - now,
    Prefix := dup l.Prefix }

/-- State threaded through passes A and B of one IA_PD: the (possibly
refreshed) known leases, the `satisfied` and `givenOut` bitsets, and
the `IAPrefix` options emitted so far. -/
structure PassSt where
  leases : List PRecord
  satisfied : List Bool
  givenOut : List Bool
  emitted : List OptIAPfx
deriving DecidableEq, Repr

/-- Shared body of passes A and B once a (hint, lease) pair is
accepted: extend the lease's expiry to `now + leaseTime` if that is
later, mark both bitset entries, and emit the refreshed lease. -/
def refreshEmit (leaseTime now : Int) (hintIdx leaseIdx : Nat) (st : PassSt) : PassSt :=
  match st.leases.get? leaseIdx with
  | none => st
  | some l =>
      let expire := now + leaseTime
      let l1 := if l.Expire < expire then { l with Expire := expire } else l
      { leases := st.leases.set leaseIdx l1,
        satisfied := st.satisfied.set hintIdx true,
        givenOut := st.givenOut.set leaseIdx true,
        emitted := st.emitted ++ [addPrefixOpt now l1] }

/-- Pass A inner loop for one hint (no break: every exactly-matching
lease is refreshed and emitted).  The hint pointer is modelled non-nil,
as it is for every parsed or synthesised `OptIAPrefix`. -/
def passAHint (lt now : Int) (h : IPNet) (hintIdx : Nat) (st : PassSt) : PassSt :=
  (List.range st.leases.length).foldl
    (fun st leaseIdx =>
      match st.leases.get? leaseIdx with
      | none => st
      | some l =>
          if samePrefix (some h) (some l.Prefix) then refreshEmit lt now hintIdx leaseIdx st
          else st)
    st

/-- Pass A over all hints (exact matches). -/
def passAGo (lt now : Int) : List IPNet → Nat → PassSt → PassSt
  | [], _, st => st
  | h :: rest, hintIdx, st =>
      passAGo lt now rest (hintIdx + 1) (passAHint lt now h hintIdx st)

/-- Pass B inner loop for one empty hint: hand out every not-yet-given
lease, subject to the length restriction when the hint carries one. -/
def passBHint (lt now : Int) (h : IPNet) (hintIdx : Nat) (st : PassSt) : PassSt :=
  (List.range st.leases.length).foldl
    (fun st leaseIdx =>
      if st.givenOut.getD leaseIdx false then st
      else
        match st.leases.get? leaseIdx with
        | none => st
        | some l =>
            if maskOnes h.Mask ≠ 0 ∧ maskOnes l.Prefix.Mask ≠ maskOnes h.Mask then st
            else refreshEmit lt now hintIdx leaseIdx st)
    st

/-- Pass B over all hints: a hint is skipped when it is already
satisfied or when its (non-nil) IP differs from `net.IPv6zero` under
`IP.Equal` — note that the synthesised empty hint has a nil IP, and
`nil.Equal(IPv6zero)` is false. -/
def passBGo (lt now : Int) : List IPNet → Nat → PassSt → PassSt
  | [], _, st => st
  | h :: rest, hintIdx, st =>
      let st1 :=
        if st.satisfied.getD hintIdx false || !(goIPEqual h.IP ipv6Zero) then st
        else passBHint lt now h hintIdx st
      passBGo lt now rest (hintIdx + 1) st1

/-- Pass C accumulator: the allocator (nil interface modelled as
`none`), the emitted options, and `newLeases` (`nil` until the first
successful allocation; each success rebinds it to
`append(knownLeases, l)` over the same base, mirroring the source). -/
structure PassCSt where
  alloc : Option PAllocator
  emitted : List OptIAPfx
  newLeases : Option (List PRecord)
deriving DecidableEq, Repr

/-- Pass C: allocate a fresh prefix for each still-unsatisfied hint;
allocator failures are logged and skipped.  `none` models a panic
(allocation attempted through a nil allocator). -/
def passCGo (lt now : Int) (base : List PRecord) (satisfied : List Bool) :
    List IPNet → Nat → PassCSt → Option PassCSt
  | [], _, st => some st
  | h :: rest, i, st =>
      if satisfied.getD i false then passCGo lt now base satisfied rest (i + 1) st
      else
        match st.alloc with
        | none => none
        | some a =>
            match a.Allocate h with
            | .error _ => passCGo lt now base satisfied rest (i + 1) st
            | .ok (allocated, a1) =>
                let l : PRecord := { Expire := now + lt, Prefix := allocated }
                passCGo lt now base satisfied rest (i + 1)
                  { alloc := some a1,
                    emitted := st.emitted ++ [addPrefixOpt now l],
                    newLeases := some (base ++ [l]) }

/-- One IA_PD request option: its IAID and the prefix hints carried by
its `IAPrefix` sub-options. -/
structure IAPDReq where
  IaId : Nat
  hints : List IPNet
deriving DecidableEq, Repr

/-- One IA_PD response option as `Handle6` builds it: the emitted
`IAPrefix` options, plus the `NoPrefixAvail` status code when there
are none. -/
structure IAPDResult where
  IaId : Nat
  emitted : List OptIAPfx
  noPrefixAvail : Bool
deriving DecidableEq, Repr

/-- The body of `Handle6`s per-IA_PD loop: substitute the synthetic
empty hint, run passes A, B and C, and report the response option, the
refreshed leases, the `newLeases` value and the updated allocator. -/
def processIAPD (lt now : Int) (alloc : Option PAllocator) (knownLeases : List PRecord)
    (iaid : Nat) (hints0 : List IPNet) :
    Option (IAPDResult × List PRecord × Option (List PRecord) × Option PAllocator) :=
  let hints := if hints0.isEmpty then [{ IP := [], Mask := [] }] else hints0
  let st0 : PassSt :=
    { leases := knownLeases,
      satisfied := List.replicate hints.length false,
      givenOut := List.replicate knownLeases.length false,
      emitted := [] }
  let st2 := passBGo lt now hints 0 (passAGo lt now hints 0 st0)
  match passCGo lt now st2.leases st2.satisfied hints 0
      { alloc := alloc, emitted := st2.emitted, newLeases := none } with
  | none => none
  | some stC =>
      some ({ IaId := iaid, emitted := stC.emitted, noPrefixAvail := stC.emitted.isEmpty },
            st2.leases, stC.newLeases, stC.alloc)

/-- The IA_PD loop of `Handle6`, threading `m.records` (`none` is the
nil map) and the allocator.  In-place expiry refreshes through the
`knownLeases` slice are visible in the map whenever the key is present;
`m.records[duid] = newLeases` on a nil map panics (`none`). -/
def handle6Go (lt now : Int) (duid : String) :
    List IAPDReq → Option (List (String × List PRecord)) → Option PAllocator →
    List IAPDResult →
    Option (Option (List (String × List PRecord)) × Option PAllocator × List IAPDResult)
  | [], records, alloc, acc => some (records, alloc, acc)
  | iapd :: rest, records, alloc, acc =>
      let knownLeases :=
        match records with
        | none => []
        | some mp => (mapLookup mp duid).getD []
      match processIAPD lt now alloc knownLeases iapd.IaId iapd.hints with
      | none => none
      | some (resp, refreshed, newLeases, alloc1) =>
          let records1 : Option (List (String × List PRecord)) :=
            match records with
            | none => none
            | some mp =>
                if (mapLookup mp duid).isSome then some (mapInsert mp duid refreshed)
                else some mp
          match newLeases with
          | none => handle6Go lt now duid rest records1 alloc1 (acc ++ [resp])
          | some nl =>
              match records1 with
              | none => none
              | some mp => handle6Go lt now duid rest (some (mapInsert mp duid nl)) alloc1
                  (acc ++ [resp])

/-- `prefix.Module.Handle6` (lines 74-205).  The DUID (hex-encoded
client id) and the request's IA_PD options are codec-level inputs.  The
very first statement after computing the DUID is `m.recLock.RLock()`,
which dereferences the nil pointer when the lock was never initialised:
modelled by `none` (a panic).  On success the returned module carries
the updated records and allocator, and the response options are
reported; the handler then always calls `next()`. -/
def prefixHandle6 (m : PrefixModule) (now : Int) (duid : String)
    (iapds : List IAPDReq) : Option (PrefixModule × List IAPDResult) :=
  match m.recLock with
  | none => none
  | some _ =>
      match handle6Go m.LeaseTime now duid iapds m.records m.allocator [] with
      | none => none
      | some (records, alloc, resps) =>
          some ({ m with records := records, allocator := alloc }, resps)

/-- The 16-byte IP `2001:db8::`. -/
def db8IP : List Nat := [0x20, 0x01, 0x0d, 0xb8] ++ List.replicate 12 0

/-- `net.ParseCIDR("2001:db8::/126")`s network. -/
def parsed126 : IPNet := { IP := db8IP, Mask := List.replicate 15 255 ++ [252] }

/-- The allocator `Provision` builds for pool `2001:db8::/126` with
allocation size 128: four /128 children, all free. -/
def allocator126 : PAllocator :=
  { parentIP := db8IP, parentLen := 126, allocLen := 128,
    used := [false, false, false, false] }

/-- The module state `Provision` actually produces for that pool: the
allocator is set, `recLock` and `records` remain nil. -/
def prefixModule126 : PrefixModule :=
  { Prefix := "2001:db8::/126", AllocationSize := 128, LeaseTime := 3600,
    allocator := some allocator126, recLock := none, records := none }

/-- C5: `Provision` never initialises `recLock` (or `records`), so on
any module built by the registered constructor every successful
`Provision` leaves `recLock` nil and every subsequent `Handle6` call
faults (nil-pointer dereference in `m.recLock.RLock()`) instead of
executing. -/
theorem prefix_handle6_faults_after_provision
    (pfx : String) (size lt : Int) (parsed : Option IPNet) (st : PrefixModule)
    (h : prefixProvision (newPrefixModule pfx size lt) parsed = .ok st) :
    st.recLock = none
      ∧ ∀ (now : Int) (duid : String) (iapds : List IAPDReq),
          prefixHandle6 st now duid iapds = none := by
  have hrl : st.recLock = none := by
    unfold prefixProvision at h
    cases parsed with
    | none => simp at h
    | some p =>
        by_cases hc : (newPrefixModule pfx size lt).AllocationSize < 0
            ∨ 128 < (newPrefixModule pfx size lt).AllocationSize
        · simp [hc] at h
        · simp only [if_neg hc] at h
          cases hb : newBitmapAllocator p (newPrefixModule pfx size lt).AllocationSize with
          | error e => rw [hb] at h; simp at h
          | ok alloc =>
              rw [hb] at h
              simp only [Except.ok.injEq] at h
              rw [← h]
              rfl
  refine ⟨hrl, fun now duid iapds => ?_⟩
  unfold prefixHandle6
  rw [hrl]

set_option maxRecDepth 4000 in
/-- Witness for C5 at the concrete pool `2001:db8::/126`,
allocation size 128, lease time 3600. -/
theorem prefix_handle6_faults_after_provision_witness :
    prefixProvision (newPrefixModule "2001:db8::/126" 128 3600) (some parsed126)
        = .ok prefixModule126
      ∧ prefixHandle6 prefixModule126 0 "0001" [{ IaId := 1, hints := [] }] = none := by
  have hp : prefixProvision (newPrefixModule "2001:db8::/126" 128 3600) (some parsed126)
      = .ok prefixModule126 := by rfl
  exact ⟨hp, (prefix_handle6_faults_after_provision _ _ _ _ _ hp).2 0 "0001" _⟩

/-- The module state as `Handle6` would see it had the lock and the
records map been initialised the way the range and file handlers do it
(`recLock = &sync.RWMutex{}`, empty map); this isolates the
reconciliation logic of passes A-C from the C5 initialisation bug. -/
def prefixModuleReady : PrefixModule :=
  { Prefix := "2001:db8::/126", AllocationSize := 128, LeaseTime := 3600,
    allocator := some allocator126, recLock := some (), records := some [] }

/-- The first /128 child of the pool. -/
def prefixChild0 : IPNet := { IP := db8IP, Mask := List.replicate 16 255 }

/-- The second /128 child of the pool (`2001:db8::1/128`). -/
def prefixChild1 : IPNet :=
  { IP := [0x20, 0x01, 0x0d, 0xb8] ++ List.replicate 11 0 ++ [1],
    Mask := List.replicate 16 255 }

/-- Module state after the first empty-hint `Handle6` call. -/
def prefixAfterFirst : PrefixModule :=
  { prefixModuleReady with
    allocator := some { allocator126 with used := [true, false, false, false] },
    records := some [("0001", [{ Prefix := prefixChild0, Expire := 3600 }])] }

/-- Module state after the second empty-hint `Handle6` call: a second
prefix has been allocated and recorded, and the first lease's expiry
was not refreshed. -/
def prefixAfterSecond : PrefixModule :=
  { prefixModuleReady with
    allocator := some { allocator126 with used := [true, true, false, false] },
    records := some [("0001",
      [{ Prefix := prefixChild0, Expire := 3600 },
       { Prefix := prefixChild1, Expire := 3610 }])] }

/-- C4: delegating the empty hint set twice to the same DUID allocates
a second, different prefix on the second invocation (and returns it
instead of the first, without refreshing the first lease's expiry).
The synthesised empty hint has a nil IP, `nil.Equal(net.IPv6zero)` is
false, so pass B skips it and pass C allocates each time — contrary to
the source's own comments for passes A/B and to the specification's
PASS-A idempotence invariant. -/
theorem prefix_repeat_empty_hint_allocates :
    prefixHandle6 prefixModuleReady 0 "0001" [{ IaId := 1, hints := [] }]
        = some (prefixAfterFirst,
            [{ IaId := 1,
               emitted := [{ PreferredLifetime := 3600, ValidLifetime := 3600,
                             Prefix := prefixChild0 }],
               noPrefixAvail := false }])
      ∧ prefixHandle6 prefixAfterFirst 10 "0001" [{ IaId := 1, hints := [] }]
        = some (prefixAfterSecond,
            [{ IaId := 1,
               emitted := [{ PreferredLifetime := 3600, ValidLifetime := 3600,
                             Prefix := prefixChild1 }],
               noPrefixAvail := false }])
      ∧ prefixChild1 ≠ prefixChild0 := by
  exact ⟨by decide, by decide, by decide⟩

/-! ## Range handler (src/handlers/range/module.go)

The IPv4 bitmap allocator and the embedded SQL store are external to
the provided sources; the allocator is modelled from the specification
(§4.5) and the store-write outcome by a flag. -/

/-- A DHCPv4 lease record: `record{IP net.IP; expires int; hostname string}`. -/
structure RRecord where
  IP : List Nat
  expires : Int
  hostname : String
deriving DecidableEq, Repr

/-- Modelled from the spec: the IPv4 range allocator over
`[start, start + |used| - 1]`; bit `k` set iff `start + k` is in use. -/
structure RAllocator where
  startIP : Nat
  used : List Bool
deriving DecidableEq, Repr

/-- The 4-byte big-endian representation of an IPv4 address value. -/
def ip4OfNat (n : Nat) : List Nat :=
  [n / 2 ^ 24 % 256, n / 2 ^ 16 % 256, n / 2 ^ 8 % 256, n % 256]

/-- Modelled from the spec (§4.5): `Allocate(hint)` for the IPv4 range
allocator; the zero hint takes the first free address, a specific hint
must be a free pool member. -/
def RAllocator.Allocate (a : RAllocator) (hint : IPNet) :
    Except String (List Nat × RAllocator) :=
  if isZeroIP hint.IP then
    match a.used.findIdx? (fun b => b == false) with
    | none => .error "allocator exhausted"
    | some k => .ok (ip4OfNat (a.startIP + k), { a with used := a.used.set k true })
  else
    let ip4 := ipTo4 hint.IP
    if ip4 = [] then .error "hint unavailable"
    else
      let n := ipToNat ip4
      if a.startIP ≤ n ∧ n - a.startIP < a.used.length
          ∧ a.used.getD (n - a.startIP) true = false then
        .ok (ip4, { a with used := a.used.set (n - a.startIP) true })
      else .error "hint unavailable"

/-- `rangeplugin.Module` runtime state.  `storeOk` models the outcome
of `saveIPAddress` on the embedded SQL store (modelled from the spec:
the write path either persists the row or fails). -/
structure RangeModule where
  LeaseTime : Int
  allocator : RAllocator
  records4 : List (String × RRecord)
  storeOk : Bool
deriving DecidableEq, Repr

/-- `Module.lookup4` (lines 138-173): return the recorded IP for a MAC,
allocating and persisting a new lease when the MAC is unknown, and
extending the persisted expiry when it would end before
`now + LeaseTime` (note the in-memory record is not updated on that
path).  The returned module carries the mutated allocator/map state,
also on the failing-save path where the address was already taken from
the allocator. -/
def rangeLookup4 (m : RangeModule) (now : Int) (mac hostname : String) :
    Except String (List Nat) × RangeModule :=
  match mapLookup m.records4 mac with
  | none =>
      match m.allocator.Allocate { IP := [], Mask := [] } with
      | .error e => (.error ("could not allocate IP: " ++ e), m)
      | .ok (ip, alloc1) =>
          let m1 := { m with allocator := alloc1 }
          let newRec : RRecord :=
            { IP := ipTo4 ip, expires := now + m.LeaseTime, hostname := hostname }
          if m1.storeOk then
            (.ok newRec.IP, { m1 with records4 := mapInsert m1.records4 mac newRec })
          else (.error "SaveIPAddress failed", m1)
  | some rec =>
      if rec.expires < now + m.LeaseTime then
        if m.storeOk then (.ok rec.IP, m)
        else (.error "could not persist lease", m)
      else (.ok rec.IP, m)

/-- `range.Module.Handle4` (lines 95-106) with the chain visible: on a
lookup error the handler logs a warning and returns `next()`; on
success it sets `resp.YourIPAddr` and returns `next()`.  The third
component records that `next` was invoked and the fourth is the
handler's return value (`nextErr` is whatever the rest of the chain
returns). -/
def rangeHandle4 (m : RangeModule) (now : Int) (mac hostname : String)
    (resp : DHCPv4Msg) (nextErr : Option String) :
    DHCPv4Msg × RangeModule × Bool × Option String :=
  match rangeLookup4 m now mac hostname with
  | (.error _, m1) => (resp, m1, true, nextErr)
  | (.ok ip, m1) => ({ resp with YourIPAddr := ip }, m1, true, nextErr)

/-- A range module whose one-address pool is fully allocated and whose
in-memory map is empty: `lookup4` must fail with allocator exhaustion. -/
def rangeExhausted : RangeModule :=
  { LeaseTime := 3600,
    allocator := { startIP := ipToNat [10, 0, 0, 10], used := [true] },
    records4 := [], storeOk := true }

/-- C6 counterexample: with the allocator exhausted, `lookup4` returns
an error, yet `Handle4` invokes `next`, returns the chain's `nil`
result and leaves the response untouched — the chain is not aborted and
the dispatcher goes on to send the response, contrary to the claim that
the error is propagated and no response is sent. -/
theorem range_lookup_error_continues_chain_cex :
    (rangeLookup4 rangeExhausted 0 "00:11:22:33:44:55" "host").1
        = .error "could not allocate IP: allocator exhausted"
      ∧ rangeHandle4 rangeExhausted 0 "00:11:22:33:44:55" "host" emptyMsg4 none
        = (emptyMsg4, rangeExhausted, true, none) := by
  exact ⟨by rfl, by decide⟩

/-- C6 (amended): whenever `lookup4` fails (allocator exhausted or
store write failed), `Handle4` swallows the error: it logs a warning,
invokes `next`, returns the chain's own result unchanged and does not
set `YourIPAddr`. -/
theorem range_handle4_swallows_lookup_error (m : RangeModule) (now : Int)
    (mac hostname : String) (resp : DHCPv4Msg) (nextErr : Option String)
    (e : String) (m1 : RangeModule)
    (h : rangeLookup4 m now mac hostname = (.error e, m1)) :
    rangeHandle4 m now mac hostname resp nextErr = (resp, m1, true, nextErr) := by
  unfold rangeHandle4
  rw [h]

/-- Witness for the amended C6 theorem at the exhausted pool. -/
theorem range_handle4_swallows_lookup_error_witness :
    rangeHandle4 rangeExhausted 0 "00:11:22:33:44:55" "host" emptyMsg4 none
      = (emptyMsg4, rangeExhausted, true, none) :=
  range_handle4_swallows_lookup_error rangeExhausted 0 "00:11:22:33:44:55" "host"
    emptyMsg4 none "could not allocate IP: allocator exhausted" rangeExhausted (by rfl)

end CaddyDhcp
